import Mathlib

/-
Shallow embedding of src/scraper.py (the anonymous fetch layer):
the BlockAll cookie policy, session construction, identity rotation
(renew_tor_ip), pool acquisition (get_tor_session) and the retry loop
(get_content). Durations are modelled as rationals, machine state as
explicit values, and side effects (sleeps, rotations, acquisitions,
request attempts) as an explicit event trace. Fallible operations
return Except; exceptions that Python would propagate are Except.error.
-/

namespace SolvedScraper

/-- Module-level constant PWD from scraper.py. -/
def PWD : String := "yohjiyamamoto"

/-- Module-level constant PORTS from scraper.py: the configured proxy
endpoint list. -/
def PORTS : List String := ["9050", "9052", "9053", "9054"]

/-! ### Cookie policy (class BlockAll) and session (set_tor_session) -/

/-- A cookie policy in the sense of http.cookiejar.CookiePolicy: the four
predicates the jar consults, plus the three flag attributes BlockAll sets.
Cookies and requests are modelled as strings (an opaque identifier is all
the predicates receive that matters here). -/
structure CookiePolicy where
  set_ok : String → String → Bool
  return_ok : String → String → Bool
  domain_return_ok : String → String → Bool
  path_return_ok : String → String → Bool
  netscape : Bool
  rfc2965 : Bool
  hide_cookie2 : Bool

/-- class BlockAll(cookiejar.CookiePolicy): every predicate is
`lambda self, *args, **kwargs: False`; netscape = True,
rfc2965 = hide_cookie2 = False. -/
def BlockAll : CookiePolicy where
  set_ok := fun _ _ => false
  return_ok := fun _ _ => false
  domain_return_ok := fun _ _ => false
  path_return_ok := fun _ _ => false
  netscape := true
  rfc2965 := false
  hide_cookie2 := false

/-- http.cookiejar.CookieJar.extract_cookies semantics: each cookie
offered by a response is stored only if the policy's set_ok accepts it
for the request. -/
def extract_cookies (p : CookiePolicy) (jar : List String)
    (respCookies : List String) (req : String) : List String :=
  jar ++ respCookies.filter (fun c => p.set_ok c req)

/-- http.cookiejar.CookieJar.add_cookie_header semantics: a stored cookie
is attached to a request only if domain_return_ok, path_return_ok and
return_ok all accept it. -/
def add_cookie_header (p : CookiePolicy) (jar : List String)
    (req : String) : List String :=
  jar.filter
    (fun c => p.domain_return_ok c req && p.path_return_ok c req &&
              p.return_ok c req)

/-- The jar contents after a session with policy p has processed a
history of (request url, Set-Cookie cookies of the response) pairs,
starting from the fresh (empty) jar of requests.session(). -/
def session_jar_after (p : CookiePolicy)
    (history : List (String × List String)) : List String :=
  history.foldl (fun jar rr => extract_cookies p jar rr.2 rr.1) []

/-- A configured requests session as set_tor_session builds it: cookie
policy and the two proxy entries. -/
structure Session where
  policy : CookiePolicy
  proxies_http : String
  proxies_https : String

/-- Scraper.set_tor_session(port): fresh session, cookie policy set to
BlockAll(), socks5h proxies on localhost:port for http and https. -/
def set_tor_session (port : String) : Session :=
  { policy := BlockAll
  , proxies_http := "socks5h://localhost:" ++ port
  , proxies_https := "socks5h://localhost:" ++ port }

/-! ### Identity rotation (renew_tor_ip) -/

/-- Observable control-channel events during Scraper.renew_tor_ip. -/
inductive CtrlEvent where
  | authenticate
  | queryAvail (result : Bool)
  | logWait
  | signalNewnym
  deriving DecidableEq, Repr

/-- The busy-wait loop `while not controller.is_newnym_available(): pass`,
modelled with a poll oracle avail (result of the k-th availability query)
and fuel bounding the number of polls; none means the loop has not
terminated within the fuel. Returns the trace of the loop's queries and
the next poll index. -/
def busyWait (avail : Nat → Bool) (k : Nat) : Nat →
    Option (List CtrlEvent × Nat)
  | 0 => none
  | fuel + 1 =>
    if avail k then some ([CtrlEvent.queryAvail true], k + 1)
    else
      (busyWait avail (k + 1) fuel).map
        (fun r => (CtrlEvent.queryAvail false :: r.1, r.2))

/-- Scraper.renew_tor_ip: connect and authenticate to the controller
(ctrlOk = false models a connection/authentication error, which the
method does not catch: Except.error), query availability once for the
log message, busy-wait until available, then signal NEWNYM.
Except.ok none means the busy-wait did not terminate within fuel. -/
def renew_tor_ip (ctrlOk : Bool) (avail : Nat → Bool) (fuel : Nat) :
    Except Unit (Option (List CtrlEvent)) :=
  if !ctrlOk then Except.error ()
  else
    let e0 := [CtrlEvent.authenticate, CtrlEvent.queryAvail (avail 0)]
    let e1 := if !avail 0 then [CtrlEvent.logWait] else []
    match busyWait avail 1 fuel with
    | none => Except.ok none
    | some r =>
        Except.ok (some (e0 ++ e1 ++ r.1 ++ [CtrlEvent.signalNewnym]))

/-! ### Pool acquisition and the retry loop -/

/-- Observable events of get_tor_session / get_content. -/
inductive Event where
  | sleepJitter (d : ℚ)
  | rotate
  | acquire (port : String)
  | request (i : Nat)
  | cooldown (d : ℚ)
  deriving DecidableEq, Repr

/-- Scraper.get_tor_session over pool state ports, with the configured
list ports_conf standing for the global PORTS. If the pool is empty,
renew_tor_ip runs first (renewRaises abstracts whether that call raises
a control-channel error — uncaught, hence Except.error) and the pool is
refilled to PORTS[:]; then self.ports.pop() removes the last endpoint
(pop of an empty list would be an uncaught IndexError) and
set_tor_session binds a session to it (the acquire event). -/
def get_tor_session (ports_conf : List String) (renewRaises : Bool)
    (ports : List String) :
    Except Unit (List Event × String × List String) :=
  if ports.isEmpty then
    if renewRaises then Except.error ()
    else
      match ports_conf.getLast? with
      | none => Except.error ()
      | some p =>
          Except.ok ([Event.rotate, Event.acquire p], p,
                     ports_conf.dropLast)
  else
    match ports.getLast? with
    | none => Except.error ()
    | some p => Except.ok ([Event.acquire p], p, ports.dropLast)

/-- n successive get_tor_session calls (no control-channel failures),
accumulating the event trace and threading the pool state. -/
def acquireSeq (ports_conf : List String) : Nat → List String →
    Except Unit (List Event × List String)
  | 0, ports => Except.ok ([], ports)
  | n + 1, ports =>
    match get_tor_session ports_conf false ports with
    | Except.error e => Except.error e
    | Except.ok (evs, _, ports') =>
      match acquireSeq ports_conf n ports' with
      | Except.error e => Except.error e
      | Except.ok (evs', ports'') => Except.ok (evs ++ evs', ports'')

/-- Outcome of one request attempt inside the try block of get_content:
the three ways control leaves it — raise_for_status raising HTTPError,
any other exception (transport errors and the rest), or success with the
response content. -/
inductive AttemptResult where
  | success (content : String)
  | httpError
  | otherError
  deriving DecidableEq, Repr

/-- True on the two except branches of get_content's try statement. -/
def isFailure : AttemptResult → Bool
  | AttemptResult.success _ => false
  | AttemptResult.httpError => true
  | AttemptResult.otherError => true

/-- The body of get_content's `for i in range(1, self.max_trys + 1)` loop
over the remaining attempt indices. Each iteration calls get_tor_session
(outside the try statement: its exceptions propagate, ending the whole
call with Except.error), then performs the attempt (req i); an HTTPError
or any other exception is logged and followed by
sleep(self.request_timeout) before the next iteration, while success
returns response.content at once. Falling off the loop returns None. -/
def get_content_loop (ports_conf : List String) (request_timeout : ℚ)
    (renewRaises : Nat → Bool) (req : Nat → AttemptResult) :
    List Nat → List String →
    List Event × List String × Except Unit (Option String)
  | [], ports => ([], ports, Except.ok none)
  | i :: rest, ports =>
    match get_tor_session ports_conf (renewRaises i) ports with
    | Except.error e => ([], ports, Except.error e)
    | Except.ok (evs, _, ports') =>
      match req i with
      | AttemptResult.success c =>
          (evs ++ [Event.request i], ports', Except.ok (some c))
      | AttemptResult.httpError =>
          let r := get_content_loop ports_conf request_timeout renewRaises
                     req rest ports'
          (evs ++ [Event.request i, Event.cooldown request_timeout] ++ r.1,
           r.2.1, r.2.2)
      | AttemptResult.otherError =>
          let r := get_content_loop ports_conf request_timeout renewRaises
                     req rest ports'
          (evs ++ [Event.request i, Event.cooldown request_timeout] ++ r.1,
           r.2.1, r.2.2)

/-- random.uniform(a, b) = a + (b - a) * u for a draw u of random.random()
in [0, 1]. -/
def uniform (a b u : ℚ) : ℚ := a + (b - a) * u

/-- Scraper.get_content(url): sleep(uniform(0, self.max_extra_wait)),
then run the attempt loop over range(1, self.max_trys + 1); max_trys is
a Python int, so a non-positive value yields an empty range
(Int.toNat max_trys iterations). Returns the event trace, the final pool
state, and the outcome: Except.error for an uncaught exception,
Except.ok (some c) for a payload, Except.ok none for exhausted attempts. -/
def get_content (ports_conf : List String) (max_extra_wait : ℚ)
    (max_trys : ℤ) (request_timeout : ℚ) (u : ℚ)
    (renewRaises : Nat → Bool) (req : Nat → AttemptResult)
    (ports : List String) :
    List Event × List String × Except Unit (Option String) :=
  let jitter := uniform 0 max_extra_wait u
  let r := get_content_loop ports_conf request_timeout renewRaises req
             (List.range' 1 max_trys.toNat) ports
  (Event.sleepJitter jitter :: r.1, r.2.1, r.2.2)

/-! ### Event counting -/

def isRequestEv : Event → Bool
  | Event.request _ => true
  | _ => false

def isCooldownEv : Event → Bool
  | Event.cooldown _ => true
  | _ => false

def isAcquireEv : Event → Bool
  | Event.acquire _ => true
  | _ => false

def isRotateEv : Event → Bool
  | Event.rotate => true
  | _ => false

def countRequests (evs : List Event) : Nat := evs.countP isRequestEv

def countCooldowns (evs : List Event) : Nat := evs.countP isCooldownEv

def countAcquires (evs : List Event) : Nat := evs.countP isAcquireEv

def countRotations (evs : List Event) : Nat := evs.countP isRotateEv

def countSignals (evs : List CtrlEvent) : Nat :=
  evs.countP (fun e => match e with
    | CtrlEvent.signalNewnym => true
    | _ => false)

attribute [simp] isRequestEv isCooldownEv isAcquireEv isRotateEv isFailure

/-! ### Helper lemmas -/

lemma countRequests_append (a b : List Event) :
    countRequests (a ++ b) = countRequests a + countRequests b := by
  simp [countRequests, List.countP_append]

lemma countCooldowns_append (a b : List Event) :
    countCooldowns (a ++ b) = countCooldowns a + countCooldowns b := by
  simp [countCooldowns, List.countP_append]

lemma countAcquires_append (a b : List Event) :
    countAcquires (a ++ b) = countAcquires a + countAcquires b := by
  simp [countAcquires, List.countP_append]

lemma countRotations_append (a b : List Event) :
    countRotations (a ++ b) = countRotations a + countRotations b := by
  simp [countRotations, List.countP_append]

/-- Acquisition from a non-empty pool: no rotation, pop the last
endpoint. -/
lemma get_tor_session_of_ne_nil (pc : List String) (b : Bool)
    (ports : List String) (h : ports ≠ []) :
    get_tor_session pc b ports =
      Except.ok ([Event.acquire (ports.getLast h)], ports.getLast h,
                 ports.dropLast) := by
  unfold get_tor_session
  rw [if_neg (by simpa [List.isEmpty_iff] using h),
      List.getLast?_eq_getLast_of_ne_nil h]

/-- Acquisition from the empty pool with a configured non-empty list and
no control-channel failure: rotate, refill, pop the last endpoint. -/
lemma get_tor_session_of_nil (pc : List String) (h : pc ≠ []) :
    get_tor_session pc false [] =
      Except.ok ([Event.rotate, Event.acquire (pc.getLast h)],
                 pc.getLast h, pc.dropLast) := by
  unfold get_tor_session
  simp [List.getLast?_eq_getLast_of_ne_nil h]

/-- Without control-channel failures and with a non-empty configured
list, acquisition always succeeds, produces exactly one acquire event,
either zero or one rotation events, no request and no cooldown events,
and leaves the pool one short of a bound by the configured size. -/
lemma get_tor_session_ok (pc : List String) (hpc : pc ≠ [])
    (ports : List String) :
    ∃ evs p ports', get_tor_session pc false ports =
        Except.ok (evs, p, ports') ∧
      (evs = [Event.acquire p] ∨ evs = [Event.rotate, Event.acquire p]) ∧
      (ports.length ≤ pc.length → ports'.length + 1 ≤ pc.length) := by
  by_cases h : ports = []
  · subst h
    refine ⟨_, _, _, get_tor_session_of_nil pc hpc, Or.inr rfl, ?_⟩
    intro _
    have : pc.length ≠ 0 := by simpa [List.length_eq_zero] using hpc
    simp [List.length_dropLast]
    omega
  · refine ⟨_, _, _, get_tor_session_of_ne_nil pc false ports h,
      Or.inl rfl, ?_⟩
    intro hle
    have : ports.length ≠ 0 := by simpa [List.length_eq_zero] using h
    simp [List.length_dropLast]
    omega

lemma countRequests_nil : countRequests [] = 0 := rfl

lemma countCooldowns_nil : countCooldowns [] = 0 := rfl

lemma countAcquires_nil : countAcquires [] = 0 := rfl

lemma countRotations_nil : countRotations [] = 0 := rfl

lemma countRequests_cons (e : Event) (l : List Event) :
    countRequests (e :: l) = countRequests l +
      (if isRequestEv e then 1 else 0) := by
  simp [countRequests, List.countP_cons]

lemma countCooldowns_cons (e : Event) (l : List Event) :
    countCooldowns (e :: l) = countCooldowns l +
      (if isCooldownEv e then 1 else 0) := by
  simp [countCooldowns, List.countP_cons]

lemma countAcquires_cons (e : Event) (l : List Event) :
    countAcquires (e :: l) = countAcquires l +
      (if isAcquireEv e then 1 else 0) := by
  simp [countAcquires, List.countP_cons]

lemma countRotations_cons (e : Event) (l : List Event) :
    countRotations (e :: l) = countRotations l +
      (if isRotateEv e then 1 else 0) := by
  simp [countRotations, List.countP_cons]

/-- When every attempt fails and no acquisition error can occur, the
loop body performs one request, one acquisition and one cooldown of the
configured duration per attempt index and falls through to None. -/
lemma get_content_loop_all_fail (pc : List String) (hpc : pc ≠ [])
    (t : ℚ) (req : Nat → AttemptResult)
    (hreq : ∀ i, isFailure (req i) = true) (l : List Nat) :
    ∀ ports : List String,
      countRequests
        (get_content_loop pc t (fun _ => false) req l ports).1 = l.length ∧
      countCooldowns
        (get_content_loop pc t (fun _ => false) req l ports).1 = l.length ∧
      countAcquires
        (get_content_loop pc t (fun _ => false) req l ports).1 = l.length ∧
      (∀ d, Event.cooldown d ∈
        (get_content_loop pc t (fun _ => false) req l ports).1 → d = t) ∧
      (get_content_loop pc t (fun _ => false) req l ports).2.2 =
        Except.ok none := by
  induction l with
  | nil =>
    intro ports
    simp [get_content_loop, countRequests, countCooldowns, countAcquires]
  | cons i rest ih =>
    intro ports
    obtain ⟨evs, p, ports', heq, hshape, -⟩ := get_tor_session_ok pc hpc ports
    have hcnt : countRequests evs = 0 ∧ countCooldowns evs = 0 ∧
        countAcquires evs = 1 ∧ ∀ d, Event.cooldown d ∉ evs := by
      rcases hshape with h | h <;> subst h <;>
        simp [countRequests, countCooldowns, countAcquires, List.countP_cons]
    obtain ⟨her, hec, hea, hem⟩ := hcnt
    obtain ⟨h1, h2, h3, h4, h5⟩ := ih ports'
    have hfail := hreq i
    cases hri : req i
    · rw [hri] at hfail; simp at hfail
    all_goals
      simp only [get_content_loop, heq, hri]
      refine ⟨?_, ?_, ?_, ?_, h5⟩
    all_goals try
      simp [countRequests_append, countCooldowns_append,
        countAcquires_append, countRequests_cons, countCooldowns_cons,
        countAcquires_cons, her, hec, hea, h1, h2, h3]
    all_goals try omega
    all_goals
      intro d hd
      rcases hd with hd | hd | hd
      · exact absurd hd (hem d)
      · exact hd
      · exact h4 d hd

/-- When no control-channel error occurs during acquisition and the
configured list is non-empty, the loop never ends in an uncaught
exception: the outcome is always Except.ok. -/
lemma get_content_loop_no_renew_error (pc : List String) (hpc : pc ≠ [])
    (t : ℚ) (req : Nat → AttemptResult) (l : List Nat) :
    ∀ ports : List String, ∃ o,
      (get_content_loop pc t (fun _ => false) req l ports).2.2 =
        Except.ok o := by
  induction l with
  | nil => intro ports; exact ⟨none, rfl⟩
  | cons i rest ih =>
    intro ports
    obtain ⟨evs, p, ports', heq, -, -⟩ := get_tor_session_ok pc hpc ports
    cases hri : req i with
    | success c => exact ⟨some c, by simp [get_content_loop, heq, hri]⟩
    | httpError =>
      obtain ⟨o, ho⟩ := ih ports'
      exact ⟨o, by simp [get_content_loop, heq, hri, ho]⟩
    | otherError =>
      obtain ⟨o, ho⟩ := ih ports'
      exact ⟨o, by simp [get_content_loop, heq, hri, ho]⟩

/-! ### Claim theorems -/

/-- Claim C1: for every configured max_trys = N ≥ 1, if every attempt's
request fails (HTTP-status or transport error), Scraper.get_content
performs exactly N attempts, sleeps the fixed cooldown (equal to
request_timeout) after each failed attempt, and returns None. -/
theorem get_content_all_fail_exhausts (pc : List String) (hpc : pc ≠ [])
    (w t u : ℚ) (N : ℕ) (hN : 1 ≤ N) (req : Nat → AttemptResult)
    (hreq : ∀ i, isFailure (req i) = true) (ports : List String) :
    countRequests
      (get_content pc w (N : ℤ) t u (fun _ => false) req ports).1 = N ∧
    countCooldowns
      (get_content pc w (N : ℤ) t u (fun _ => false) req ports).1 = N ∧
    (∀ d, Event.cooldown d ∈
      (get_content pc w (N : ℤ) t u (fun _ => false) req ports).1 →
        d = t) ∧
    (get_content pc w (N : ℤ) t u (fun _ => false) req ports).2.2 =
      Except.ok none := by
  obtain ⟨h1, h2, h3, h4, h5⟩ :=
    get_content_loop_all_fail pc hpc t req hreq
      (List.range' 1 ((N : ℤ)).toNat) ports
  rw [Int.toNat_natCast] at h1 h2 h3 h4 h5
  refine ⟨?_, ?_, ?_, ?_⟩
  · simp only [get_content, countRequests_cons, Int.toNat_natCast]
    simp [h1]
  · simp only [get_content, countCooldowns_cons, Int.toNat_natCast]
    simp [h2]
  · intro d hd
    simp only [get_content, Int.toNat_natCast, List.mem_cons] at hd
    rcases hd with hd | hd
    · exact absurd hd (by simp)
    · exact h4 d hd
  · simp only [get_content, Int.toNat_natCast]
    exact h5

/-- Witness for C1 at N = 2, always-HTTP-error target, fresh pool. -/
theorem get_content_all_fail_exhausts_witness :
    countRequests (get_content PORTS 5 ((2 : ℕ) : ℤ) 10 0 (fun _ => false)
      (fun _ => AttemptResult.httpError) PORTS).1 = 2 ∧
    countCooldowns (get_content PORTS 5 ((2 : ℕ) : ℤ) 10 0 (fun _ => false)
      (fun _ => AttemptResult.httpError) PORTS).1 = 2 ∧
    (∀ d, Event.cooldown d ∈ (get_content PORTS 5 ((2 : ℕ) : ℤ) 10 0
      (fun _ => false) (fun _ => AttemptResult.httpError) PORTS).1 →
        d = 10) ∧
    (get_content PORTS 5 ((2 : ℕ) : ℤ) 10 0 (fun _ => false)
      (fun _ => AttemptResult.httpError) PORTS).2.2 = Except.ok none :=
  get_content_all_fail_exhausts PORTS (by decide) 5 10 0 2 (by decide)
    (fun _ => AttemptResult.httpError) (fun _ => rfl) PORTS

/-- Claim C3 counterexample: with max_trys = 3 and a target that always
returns HTTP 503 (raise_for_status raises HTTPError every attempt), the
trace holds three cooldown waits, not two: the code sleeps after every
failed attempt, the last one included. -/
theorem get_content_503_two_cooldowns_cex :
    countCooldowns (get_content PORTS 5 3 10 0 (fun _ => false)
      (fun _ => AttemptResult.httpError) PORTS).1 = 3 ∧
    countCooldowns (get_content PORTS 5 3 10 0 (fun _ => false)
      (fun _ => AttemptResult.httpError) PORTS).1 ≠ 2 := by
  constructor <;> decide

/-- Claim C3 (amended): with max_trys = 3 and a target that always
returns HTTP 503, Scraper.get_content returns the absent outcome after
exactly 3 attempts and exactly 3 cooldown waits (one after every failed
attempt, the last included). -/
theorem get_content_503_exhausts (w t u : ℚ) (ports : List String) :
    countRequests (get_content PORTS w 3 t u (fun _ => false)
      (fun _ => AttemptResult.httpError) ports).1 = 3 ∧
    countCooldowns (get_content PORTS w 3 t u (fun _ => false)
      (fun _ => AttemptResult.httpError) ports).1 = 3 ∧
    (get_content PORTS w 3 t u (fun _ => false)
      (fun _ => AttemptResult.httpError) ports).2.2 = Except.ok none := by
  obtain ⟨h1, h2, -, -, h5⟩ :=
    get_content_loop_all_fail PORTS (by decide) t
      (fun _ => AttemptResult.httpError) (fun _ => rfl)
      (List.range' 1 (3 : ℤ).toNat) ports
  refine ⟨?_, ?_, ?_⟩
  · simp only [get_content, countRequests_cons]
    simpa using h1
  · simp only [get_content, countCooldowns_cons]
    simpa using h2
  · simp only [get_content]
    exact h5

/-- Claim C10: if max_trys ≤ 0, Scraper.get_content returns None after
only the jitter sleep — zero attempts, no acquisition, no rotation, and
the pool state unchanged. -/
theorem get_content_nonpositive_max_trys (pc : List String) (w : ℚ)
    (N : ℤ) (t u : ℚ) (rr : Nat → Bool) (req : Nat → AttemptResult)
    (ports : List String) (hN : N ≤ 0) :
    get_content pc w N t u rr req ports =
      ([Event.sleepJitter (uniform 0 w u)], ports, Except.ok none) := by
  have h0 : N.toNat = 0 := Int.toNat_of_nonpos hN
  simp [get_content, h0, get_content_loop, List.range']

/-- Witness for C10 at max_trys = -1. -/
theorem get_content_nonpositive_max_trys_witness :
    get_content PORTS 5 (-1) 10 0 (fun _ => false)
      (fun _ => AttemptResult.httpError) PORTS =
      ([Event.sleepJitter (uniform 0 5 0)], PORTS, Except.ok none) :=
  get_content_nonpositive_max_trys PORTS 5 (-1) 10 0 (fun _ => false)
    (fun _ => AttemptResult.httpError) PORTS (by decide)

/-- Claim C2 counterexample: a control-channel error during identity
rotation is NOT caught inside get_content. With the configured PORTS, a
fresh pool, max_trys = 5 and a target that always fails, attempts 1–4
drain the pool; at attempt 5 the empty pool triggers renew_tor_ip, whose
error escapes (get_tor_session is called outside the try block), so
get_content ends in an uncaught exception rather than the absent
result. -/
theorem get_content_renew_error_escapes_cex :
    (get_content PORTS 5 5 10 0 (fun _ => true)
      (fun _ => AttemptResult.httpError) PORTS).2.2 = Except.error () := by
  rfl

/-- Claim C2 (amended): errors raised by the request attempt itself
(HTTPError and every other exception inside the try block) are caught in
get_content, counted against the attempt budget and converted into
cooldown-then-retry, and when no control-channel error occurs during
session acquisition the caller never sees an exception — only a payload
or the absent result; however, control-channel errors raised by
renew_tor_ip during session acquisition do propagate out of get_content,
because get_tor_session is called outside the try block. -/
theorem get_content_no_exception_without_renew_error (pc : List String)
    (hpc : pc ≠ []) (w : ℚ) (N : ℤ) (t u : ℚ)
    (req : Nat → AttemptResult) (ports : List String) :
    ∃ o, (get_content pc w N t u (fun _ => false) req ports).2.2 =
      Except.ok o := by
  obtain ⟨o, ho⟩ :=
    get_content_loop_no_renew_error pc hpc t req
      (List.range' 1 N.toNat) ports
  exact ⟨o, by simp only [get_content]; exact ho⟩

/-- Witness for the amended C2. -/
theorem get_content_no_exception_without_renew_error_witness :
    ∃ o, (get_content PORTS 5 3 10 0 (fun _ => false)
      (fun _ => AttemptResult.httpError) PORTS).2.2 = Except.ok o :=
  get_content_no_exception_without_renew_error PORTS (by decide) 5 3 10 0
    (fun _ => AttemptResult.httpError) PORTS

/-- When the first success arrives at attempt k within the range of
remaining attempt indices, the loop performs exactly the attempts up to
k, ends its trace with request k (nothing after the success), and
returns that attempt's content. -/
lemma get_content_loop_success (pc : List String) (hpc : pc ≠ [])
    (t : ℚ) (req : Nat → AttemptResult) (k : Nat) (c : String)
    (hk : req k = AttemptResult.success c) (m : Nat) :
    ∀ (j : Nat) (ports : List String), j ≤ k → k < j + m →
      (∀ i, j ≤ i → i < k → isFailure (req i) = true) →
      (∃ pre,
        (get_content_loop pc t (fun _ => false) req
          (List.range' j m) ports).1 = pre ++ [Event.request k]) ∧
      countRequests (get_content_loop pc t (fun _ => false) req
        (List.range' j m) ports).1 = k - j + 1 ∧
      countAcquires (get_content_loop pc t (fun _ => false) req
        (List.range' j m) ports).1 = k - j + 1 ∧
      countCooldowns (get_content_loop pc t (fun _ => false) req
        (List.range' j m) ports).1 = k - j ∧
      (get_content_loop pc t (fun _ => false) req
        (List.range' j m) ports).2.2 = Except.ok (some c) := by
  induction m with
  | zero => intro j ports hjk hkm hfail; omega
  | succ m ih =>
    intro j ports hjk hkm hfail
    have hr : List.range' j (m + 1) = j :: List.range' (j + 1) m := by
      simp [List.range']
    obtain ⟨evs, p, ports', heq, hshape, -⟩ := get_tor_session_ok pc hpc ports
    have hcnt : countRequests evs = 0 ∧ countCooldowns evs = 0 ∧
        countAcquires evs = 1 := by
      rcases hshape with h | h <;> subst h <;>
        simp [countRequests, countCooldowns, countAcquires, List.countP_cons]
    obtain ⟨her, hec, hea⟩ := hcnt
    by_cases hj : j = k
    · subst hj
      have hloop : get_content_loop pc t (fun _ => false) req
          (List.range' j (m + 1)) ports =
          (evs ++ [Event.request j], ports', Except.ok (some c)) := by
        rw [hr]
        simp only [get_content_loop, heq, hk]
      rw [hloop]
      refine ⟨⟨evs, rfl⟩, ?_, ?_, ?_, rfl⟩
      · simp [countRequests_append, countRequests_cons,
          countRequests_nil, her]
      · simp [countAcquires_append, countAcquires_cons,
          countAcquires_nil, hea]
      · simp [countCooldowns_append, countCooldowns_cons,
          countCooldowns_nil, hec]
    · have hjk' : j < k := lt_of_le_of_ne hjk hj
      have hfj := hfail j le_rfl hjk'
      obtain ⟨⟨pre, hpre⟩, h1, h2, h3, h5⟩ :=
        ih (j + 1) ports' (by omega) (by omega)
          (fun i hi1 hi2 => hfail i (by omega) hi2)
      have hloop : get_content_loop pc t (fun _ => false) req
          (List.range' j (m + 1)) ports =
          (evs ++ [Event.request j, Event.cooldown t] ++
            (get_content_loop pc t (fun _ => false) req
              (List.range' (j + 1) m) ports').1,
           (get_content_loop pc t (fun _ => false) req
              (List.range' (j + 1) m) ports').2.1,
           (get_content_loop pc t (fun _ => false) req
              (List.range' (j + 1) m) ports').2.2) := by
        rw [hr]
        cases hrj : req j
        · rw [hrj] at hfj; simp at hfj
        all_goals simp only [get_content_loop, heq, hrj]
      rw [hloop]
      refine ⟨⟨evs ++ [Event.request j, Event.cooldown t] ++ pre,
        by rw [hpre]; simp⟩, ?_, ?_, ?_, h5⟩
      · simp [countRequests_append, countRequests_cons,
          countRequests_nil, her, h1]
        omega
      · simp [countAcquires_append, countAcquires_cons,
          countAcquires_nil, hea, h2]
        omega
      · simp [countCooldowns_append, countCooldowns_cons,
          countCooldowns_nil, hec, h3]
        omega

/-- Claim C4: if the request succeeds on attempt k with
1 ≤ k ≤ max_trys, get_content returns that response's payload; it
performs no attempt beyond k (the trace ends at request k), acquires no
further endpoint after attempt k (exactly k acquisitions), and sleeps no
cooldown after the successful attempt (exactly k - 1 cooldowns). -/
theorem get_content_success_at_k (pc : List String) (hpc : pc ≠ [])
    (w t u : ℚ) (N k : ℕ) (hk1 : 1 ≤ k) (hkN : k ≤ N)
    (req : Nat → AttemptResult) (c : String)
    (hsucc : req k = AttemptResult.success c)
    (hfail : ∀ i, 1 ≤ i → i < k → isFailure (req i) = true)
    (ports : List String) :
    (get_content pc w (N : ℤ) t u (fun _ => false) req ports).2.2 =
      Except.ok (some c) ∧
    countRequests
      (get_content pc w (N : ℤ) t u (fun _ => false) req ports).1 = k ∧
    countAcquires
      (get_content pc w (N : ℤ) t u (fun _ => false) req ports).1 = k ∧
    countCooldowns
      (get_content pc w (N : ℤ) t u (fun _ => false) req ports).1 =
        k - 1 ∧
    (∃ pre, (get_content pc w (N : ℤ) t u (fun _ => false) req ports).1 =
      pre ++ [Event.request k]) := by
  obtain ⟨⟨pre, hpre⟩, h1, h2, h3, h5⟩ :=
    get_content_loop_success pc hpc t req k c hsucc ((N : ℤ)).toNat 1
      ports hk1 (by simp; omega) hfail
  rw [Int.toNat_natCast] at hpre h1 h2 h3 h5
  refine ⟨?_, ?_, ?_, ?_, ?_⟩
  · simp only [get_content, Int.toNat_natCast]
    exact h5
  · simp only [get_content, countRequests_cons, Int.toNat_natCast]
    simp [h1]
    omega
  · simp only [get_content, countAcquires_cons, Int.toNat_natCast]
    simp [h2]
    omega
  · simp only [get_content, countCooldowns_cons, Int.toNat_natCast]
    simp [h3]
  · refine ⟨Event.sleepJitter (uniform 0 w u) :: pre, ?_⟩
    simp only [get_content, Int.toNat_natCast]
    rw [hpre]
    simp

/-- Witness for C4: success on attempt 2 of 3. -/
theorem get_content_success_at_k_witness :
    (get_content PORTS 5 ((3 : ℕ) : ℤ) 10 0 (fun _ => false)
      (fun i => if i = 2 then AttemptResult.success "payload"
                else AttemptResult.httpError) PORTS).2.2 =
      Except.ok (some "payload") ∧
    countRequests (get_content PORTS 5 ((3 : ℕ) : ℤ) 10 0 (fun _ => false)
      (fun i => if i = 2 then AttemptResult.success "payload"
                else AttemptResult.httpError) PORTS).1 = 2 ∧
    countAcquires (get_content PORTS 5 ((3 : ℕ) : ℤ) 10 0 (fun _ => false)
      (fun i => if i = 2 then AttemptResult.success "payload"
                else AttemptResult.httpError) PORTS).1 = 2 ∧
    countCooldowns (get_content PORTS 5 ((3 : ℕ) : ℤ) 10 0 (fun _ => false)
      (fun i => if i = 2 then AttemptResult.success "payload"
                else AttemptResult.httpError) PORTS).1 = 2 - 1 ∧
    (∃ pre, (get_content PORTS 5 ((3 : ℕ) : ℤ) 10 0 (fun _ => false)
      (fun i => if i = 2 then AttemptResult.success "payload"
                else AttemptResult.httpError) PORTS).1 =
      pre ++ [Event.request 2]) :=
  get_content_success_at_k PORTS (by decide) 5 10 0 3 2 (by decide)
    (by decide)
    (fun i => if i = 2 then AttemptResult.success "payload"
              else AttemptResult.httpError) "payload" rfl
    (fun i h1 h2 => by
      have hi : i = 1 := by omega
      subst hi
      rfl) PORTS

/-- While the pool is long enough, successive acquisitions never rotate:
each call pops one endpoint off the end. -/
lemma acquireSeq_no_rot (pc : List String) :
    ∀ (n : Nat) (ports : List String), n ≤ ports.length →
      ∃ evs rest, acquireSeq pc n ports = Except.ok (evs, rest) ∧
        countRotations evs = 0 ∧ countAcquires evs = n ∧
        rest.length = ports.length - n := by
  intro n
  induction n with
  | zero =>
    intro ports h
    exact ⟨[], ports, rfl, rfl, rfl, by omega⟩
  | succ m ih =>
    intro ports h
    have hne : ports ≠ [] := by
      intro he; subst he; simp at h
    have hlen : ports.length ≠ 0 := by
      simpa [List.length_eq_zero] using hne
    obtain ⟨evs, rest, heq, hrot, hacq, hrlen⟩ :=
      ih ports.dropLast (by simp [List.length_dropLast]; omega)
    refine ⟨Event.acquire (ports.getLast hne) :: evs, rest, ?_, ?_, ?_, ?_⟩
    · simp only [acquireSeq, get_tor_session_of_ne_nil pc false ports hne,
        heq, List.singleton_append]
    · simp [countRotations_cons, hrot]
    · simp [countAcquires_cons, hacq]
    · simp only [List.length_dropLast] at hrlen
      omega

/-- Sequencing acquisitions: a + b acquisitions are the first a followed
by b more from the reached pool state. -/
lemma acquireSeq_append (pc : List String) (a b : Nat) :
    ∀ (ports : List String) (evs : List Event) (rest : List String)
      (evs' : List Event) (rest' : List String),
      acquireSeq pc a ports = Except.ok (evs, rest) →
      acquireSeq pc b rest = Except.ok (evs', rest') →
      acquireSeq pc (a + b) ports = Except.ok (evs ++ evs', rest') := by
  induction a with
  | zero =>
    intro ports evs rest evs' rest' h1 h2
    obtain ⟨he, hr⟩ : evs = [] ∧ rest = ports := by
      simpa [acquireSeq] using h1.symm
    subst he
    subst hr
    simpa using h2
  | succ m ih =>
    intro ports evs rest evs' rest' h1 h2
    have hadd : m + 1 + b = (m + b) + 1 := by omega
    rw [hadd]
    simp only [acquireSeq] at h1 ⊢
    cases hgs : get_tor_session pc false ports with
    | error e => rw [hgs] at h1; simp at h1
    | ok v =>
      obtain ⟨evs0, p, ports'⟩ := v
      simp only [hgs] at h1 ⊢
      cases hs : acquireSeq pc m ports' with
      | error e => rw [hs] at h1; simp at h1
      | ok v1 =>
        obtain ⟨evs1, rest1⟩ := v1
        simp only [hs] at h1
        obtain ⟨he, hr⟩ : evs0 ++ evs1 = evs ∧ rest1 = rest := by
          simpa using h1
        subst hr
        rw [ih ports' evs1 rest1 evs' rest' hs h2]
        rw [← he]
        simp

/-- Claim C5: starting from a full pool of size endpoints, the first
size acquisitions (Scraper.get_tor_session) trigger no identity
rotation, and the (size+1)th acquisition triggers exactly one rotation
before it returns — its trace appends exactly one rotate event followed
by the acquire. -/
theorem acquire_rotation_cycle (pc : List String) (hpc : pc ≠ []) :
    ∃ evs p, acquireSeq pc pc.length pc = Except.ok (evs, []) ∧
      countRotations evs = 0 ∧
      acquireSeq pc (pc.length + 1) pc =
        Except.ok (evs ++ [Event.rotate, Event.acquire p],
                   pc.dropLast) ∧
      countRotations (evs ++ [Event.rotate, Event.acquire p]) = 1 := by
  obtain ⟨evs, rest, heq, hrot, hacq, hlen⟩ :=
    acquireSeq_no_rot pc pc.length pc le_rfl
  have hrest : rest = [] := List.length_eq_zero.mp (by omega)
  subst hrest
  have hone : acquireSeq pc 1 [] =
      Except.ok ([Event.rotate, Event.acquire (pc.getLast hpc)],
                 pc.dropLast) := by
    simp only [acquireSeq, get_tor_session_of_nil pc hpc]
    simp
  refine ⟨evs, pc.getLast hpc, heq, hrot, ?_, ?_⟩
  · have := acquireSeq_append pc pc.length 1 pc evs [] _ _ heq hone
    simpa using this
  · simp [countRotations_append, countRotations_cons,
      countRotations_nil, hrot]

/-- Witness for C5: a pool of 2 endpoints, 2 then 3 sequential
acquisitions — no rotation in the first 2, exactly 1 rotation in the
3rd call, i.e. between the 2nd and 3rd acquisition. -/
theorem acquire_rotation_cycle_witness :
    ∃ evs p, acquireSeq ["9050", "9052"]
        (["9050", "9052"] : List String).length ["9050", "9052"] =
        Except.ok (evs, []) ∧
      countRotations evs = 0 ∧
      acquireSeq ["9050", "9052"]
        ((["9050", "9052"] : List String).length + 1) ["9050", "9052"] =
        Except.ok (evs ++ [Event.rotate, Event.acquire p],
                   (["9050", "9052"] : List String).dropLast) ∧
      countRotations (evs ++ [Event.rotate, Event.acquire p]) = 1 :=
  acquire_rotation_cycle ["9050", "9052"] (by decide)

/-- Single-step bound: an acquisition from any pool state not exceeding
the configured size leaves the pool strictly below the configured
size. -/
lemma acquireSeq_length_le (pc : List String) (hpc : pc ≠ []) :
    ∀ (n : Nat) (ports : List String), ports.length ≤ pc.length →
      ∀ evs rest, acquireSeq pc n ports = Except.ok (evs, rest) →
        rest.length ≤ pc.length ∧
        (1 ≤ n → rest.length + 1 ≤ pc.length) := by
  intro n
  induction n with
  | zero =>
    intro ports hle evs rest h
    obtain ⟨-, hr⟩ : evs = [] ∧ rest = ports := by
      simpa [acquireSeq] using h.symm
    subst hr
    exact ⟨hle, by omega⟩
  | succ m ih =>
    intro ports hle evs rest h
    obtain ⟨evs0, p, ports', hgs, -, hlen'⟩ := get_tor_session_ok pc hpc ports
    have hstep : ports'.length + 1 ≤ pc.length := hlen' hle
    simp only [acquireSeq] at h
    simp only [hgs] at h
    cases hs : acquireSeq pc m ports' with
    | error e => rw [hs] at h; simp at h
    | ok v1 =>
      obtain ⟨evs1, rest1⟩ := v1
      simp only [hs] at h
      obtain ⟨-, hr⟩ : evs0 ++ evs1 = evs ∧ rest1 = rest := by
        simpa using h
      subst hr
      cases m with
      | zero =>
        obtain ⟨-, hr1⟩ : evs1 = [] ∧ rest1 = ports' := by
          simpa [acquireSeq] using hs.symm
        subst hr1
        exact ⟨by omega, fun _ => by omega⟩
      | succ m' =>
        have hres := ih ports' (by omega) evs1 rest1 hs
        exact ⟨hres.1, fun _ => hres.2 (by omega)⟩

/-- Claim C6: for every Scraper instance and every sequence of
acquisitions starting from the full configured pool, the pool never
holds more endpoints than the configured list size, and each
acquisition leaves it at most one short of that size (it is refilled
whole only when empty, never incrementally). -/
theorem pool_never_exceeds_config (pc : List String) (hpc : pc ≠ [])
    (n : Nat) (evs : List Event) (rest : List String)
    (h : acquireSeq pc n pc = Except.ok (evs, rest)) :
    rest.length ≤ pc.length ∧
    (1 ≤ n → rest.length + 1 ≤ pc.length) :=
  acquireSeq_length_le pc hpc n pc le_rfl evs rest h

/-- Witness for C6: one acquisition from the configured PORTS pool. -/
theorem pool_never_exceeds_config_witness :
    (["9050", "9052", "9053"] : List String).length ≤ PORTS.length ∧
    (1 ≤ 1 →
      (["9050", "9052", "9053"] : List String).length + 1 ≤
        PORTS.length) :=
  pool_never_exceeds_config PORTS (by decide) 1 [Event.acquire "9054"]
    ["9050", "9052", "9053"] (by rfl)


/-- The busy-wait trace is some number of failed polls followed by one
successful poll; it contains no signal of its own. -/
lemma busyWait_shape (avail : Nat → Bool) :
    ∀ (fuel k : Nat) (evs : List CtrlEvent) (next : Nat),
      busyWait avail k fuel = some (evs, next) →
      ∃ m, evs = List.replicate m (CtrlEvent.queryAvail false) ++
        [CtrlEvent.queryAvail true] := by
  intro fuel
  induction fuel with
  | zero => intro k evs next h; simp [busyWait] at h
  | succ f ih =>
    intro k evs next h
    by_cases ha : avail k
    · rw [busyWait, if_pos ha] at h
      obtain ⟨he, -⟩ : [CtrlEvent.queryAvail true] = evs ∧ k + 1 = next := by
        simpa using h
      exact ⟨0, by simp [← he]⟩
    · rw [busyWait, if_neg ha] at h
      cases hb : busyWait avail (k + 1) f with
      | none => rw [hb] at h; simp at h
      | some r =>
        obtain ⟨evs1, k1⟩ := r
        rw [hb] at h
        obtain ⟨he, -⟩ : CtrlEvent.queryAvail false :: evs1 = evs ∧
            k1 = next := by simpa using h
        obtain ⟨m, hm⟩ := ih (k + 1) evs1 k1 hb
        refine ⟨m + 1, ?_⟩
        rw [← he, hm]
        simp [List.replicate_succ]

lemma countSignals_append (a b : List CtrlEvent) :
    countSignals (a ++ b) = countSignals a + countSignals b := by
  simp [countSignals, List.countP_append]

lemma countSignals_replicate (m : Nat) (b : Bool) :
    countSignals (List.replicate m (CtrlEvent.queryAvail b)) = 0 := by
  induction m with
  | zero => rfl
  | succ m ih =>
    rw [List.replicate_succ]
    simpa [countSignals, List.countP_cons] using ih

/-- Claim C7: each call to Scraper.renew_tor_ip polls the permission
query until the control channel reports the new-identity signal is
permitted, and only then sends NEWNYM: on every terminating run the
trace ends with a permitted poll followed by exactly one signal, and no
signal occurs anywhere before that. -/
theorem renew_tor_ip_signals_once (ctrlOk : Bool) (avail : Nat → Bool)
    (fuel : Nat) (evs : List CtrlEvent)
    (h : renew_tor_ip ctrlOk avail fuel = Except.ok (some evs)) :
    countSignals evs = 1 ∧
    ∃ pre, evs = pre ++ [CtrlEvent.queryAvail true,
        CtrlEvent.signalNewnym] ∧
      CtrlEvent.signalNewnym ∉ pre := by
  unfold renew_tor_ip at h
  by_cases hc : ctrlOk
  case neg => simp [hc] at h
  rw [if_neg (by simp [hc])] at h
  cases hb : busyWait avail 1 fuel with
  | none => rw [hb] at h; simp at h
  | some r =>
    obtain ⟨evs1, k1⟩ := r
    rw [hb] at h
    obtain ⟨m, hm⟩ := busyWait_shape avail fuel 1 evs1 k1 hb
    have he : evs = [CtrlEvent.authenticate,
        CtrlEvent.queryAvail (avail 0)] ++
        (if !avail 0 then [CtrlEvent.logWait] else []) ++
        (List.replicate m (CtrlEvent.queryAvail false) ++
          [CtrlEvent.queryAvail true]) ++ [CtrlEvent.signalNewnym] := by
      rw [← hm]
      simpa using h.symm
    refine ⟨?_, ?_⟩
    · rw [he]
      by_cases h0 : avail 0 <;>
        simp [h0, countSignals_append, countSignals_replicate,
          countSignals, List.countP_cons]
    · refine ⟨[CtrlEvent.authenticate, CtrlEvent.queryAvail (avail 0)] ++
        (if !avail 0 then [CtrlEvent.logWait] else []) ++
        List.replicate m (CtrlEvent.queryAvail false), ?_, ?_⟩
      · rw [he]
        simp
      · by_cases h0 : avail 0 <;>
          simp [h0, List.mem_append, List.mem_replicate]

/-- Witness for C7: permission immediately available, fuel 1. -/
theorem renew_tor_ip_signals_once_witness :
    countSignals [CtrlEvent.authenticate, CtrlEvent.queryAvail true,
      CtrlEvent.queryAvail true, CtrlEvent.signalNewnym] = 1 ∧
    ∃ pre, [CtrlEvent.authenticate, CtrlEvent.queryAvail true,
        CtrlEvent.queryAvail true, CtrlEvent.signalNewnym] =
        pre ++ [CtrlEvent.queryAvail true, CtrlEvent.signalNewnym] ∧
      CtrlEvent.signalNewnym ∉ pre :=
  renew_tor_ip_signals_once true (fun _ => true) 1
    [CtrlEvent.authenticate, CtrlEvent.queryAvail true,
     CtrlEvent.queryAvail true, CtrlEvent.signalNewnym] rfl

lemma extract_cookies_blockall (jar resp : List String) (req : String) :
    extract_cookies BlockAll jar resp req = jar := by
  simp [extract_cookies, BlockAll]

lemma session_jar_after_blockall
    (history : List (String × List String)) :
    session_jar_after BlockAll history = [] := by
  have key : ∀ (h : List (String × List String)) (jar : List String),
      h.foldl (fun jar rr => extract_cookies BlockAll jar rr.2 rr.1)
        jar = jar := by
    intro h
    induction h with
    | nil => intro jar; rfl
    | cons a t ih =>
      intro jar
      rw [List.foldl_cons, extract_cookies_blockall]
      exact ih jar
  exact key history []

/-- Claim C8: the cookie policy installed by set_tor_session rejects
every set/get/domain/path check, so across any history of responses
carrying Set-Cookie headers the session jar stays empty and no request
ever carries a cookie header. -/
theorem blockall_rejects_all_cookies :
    (∀ port c r,
      (set_tor_session port).policy.set_ok c r = false ∧
      (set_tor_session port).policy.return_ok c r = false ∧
      (set_tor_session port).policy.domain_return_ok c r = false ∧
      (set_tor_session port).policy.path_return_ok c r = false) ∧
    (∀ (history : List (String × List String)) (req : String),
      session_jar_after BlockAll history = [] ∧
      add_cookie_header BlockAll (session_jar_after BlockAll history)
        req = []) := by
  constructor
  · intro port c r
    exact ⟨rfl, rfl, rfl, rfl⟩
  · intro history req
    refine ⟨session_jar_after_blockall history, ?_⟩
    rw [session_jar_after_blockall]
    rfl

/-- Claim C9: for every call to get_content and every random draw
u ∈ [0, 1], the pre-fetch jitter delay slept before the first attempt
lies within [0, max_extra_wait] inclusive. -/
theorem jitter_within_bounds (pc : List String) (w : ℚ) (N : ℤ)
    (t u : ℚ) (rr : Nat → Bool) (req : Nat → AttemptResult)
    (ports : List String) (hu0 : 0 ≤ u) (hu1 : u ≤ 1) (hw : 0 ≤ w) :
    ∃ d rest, (get_content pc w N t u rr req ports).1 =
      Event.sleepJitter d :: rest ∧ 0 ≤ d ∧ d ≤ w := by
  refine ⟨uniform 0 w u,
    (get_content_loop pc t rr req (List.range' 1 N.toNat) ports).1,
    rfl, ?_, ?_⟩
  · simp only [uniform, zero_add, sub_zero]
    exact mul_nonneg hw hu0
  · simp only [uniform, zero_add, sub_zero]
    calc w * u ≤ w * 1 := mul_le_mul_of_nonneg_left hu1 hw
    _ = w := mul_one w

/-- Witness for C9 at u = 1/2, max_extra_wait = 5. -/
theorem jitter_within_bounds_witness :
    ∃ d rest, (get_content PORTS 5 3 10 (1/2) (fun _ => false)
      (fun _ => AttemptResult.httpError) PORTS).1 =
      Event.sleepJitter d :: rest ∧ 0 ≤ d ∧ d ≤ 5 :=
  jitter_within_bounds PORTS 5 3 10 (1/2) (fun _ => false)
    (fun _ => AttemptResult.httpError) PORTS (by norm_num) (by norm_num)
    (by norm_num)

end SolvedScraper
